import Mathlib

/-
Verification of three modules of the crewAI repository excerpt:
  * crewai/memory/memory.py                  (Memory.save / Memory.search)
  * crewai/utilities/embedding_configurator.py
  * crewai/utilities/evaluators/crew_evaluator_handler.py

Modelling conventions:
  * Python dicts with string keys are insertion-ordered association lists.
  * Python floats are modelled as exact rationals (ℚ).
  * Python exceptions are modelled with `Except String`; the string is the
    exception message.
  * Python truthiness: `None` and `""` (and the empty dict / empty list)
    are falsy, everything else is truthy.
-/

/-- Python dict with string keys, modelled as an insertion-ordered
association list.  Keys are unique (a Python dict cannot hold a key
twice). -/
abbrev StrDict (V : Type) := List (String × V)

/-- Python `d.get(k)`: the value bound to `k`, or `None` if absent. -/
def dictGet {V : Type} (d : StrDict V) (k : String) : Option V :=
  match d with
  | [] => none
  | (k0, v) :: rest => if k0 == k then some v else dictGet rest k

/-- Python `d[k] = v`: update the binding in place if `k` exists, else
append a new binding at the end (dict insertion order). -/
def dictSet {V : Type} (d : StrDict V) (k : String) (v : V) : StrDict V :=
  match d with
  | [] => [(k, v)]
  | (k0, v0) :: rest =>
    if k0 == k then (k, v) :: rest else (k0, v0) :: dictSet rest k v

/-- Truthiness of an optional Python string: `None` and `""` are falsy. -/
def pyTruthyStr : Option String → Bool
  | none => false
  | some s => s ≠ ""

/-- Python `a or b` on optional strings: `a` when truthy, else `b`. -/
def pyOrStr (a b : Option String) : Option String :=
  if pyTruthyStr a then a else b

/-- Python `a or b` where `b` is a (truthy) string literal, as in the
Ollama URL default. -/
def pyOrStrD (a : Option String) (b : String) : String :=
  if pyTruthyStr a then a.getD "" else b

/-- Python values stored in a metadata dict.  The code under
verification only ever writes string values (the agent tag); caller
metadata values are opaque to it, represented here by strings and
numbers. -/
inductive PyVal where
  | str (s : String)
  | num (q : ℚ)
deriving DecidableEq

/- ------------------------------------------------------------------
   crewai/memory/memory.py
   ------------------------------------------------------------------ -/

/-- Model of the vector-store backend used by `Memory.search`: the
facade delegates to `storage.search` and we only need its signature. -/
structure Storage (α : Type) where
  search : String → Nat → ℚ → List α

/-- Model of `crewai.memory.memory.Memory`: a facade holding a storage
backend. -/
structure Memory (α : Type) where
  storage : Storage α

/-- Model of `Memory.search`: delegates to the storage with defaults
`limit=3` and `score_threshold=0.35`, returning the storage result
unchanged. -/
def Memory.search {α : Type} (m : Memory α) (query : String)
    (limit : Nat := 3) (score_threshold : ℚ := 35 / 100) : List α :=
  m.storage.search query limit score_threshold

/-- Observable outcome of one `Memory.save` call.

`storage_calls` lists the `(value, metadata)` pairs passed to
`storage.save`, in order.  `caller_metadata_after` is the content of the
caller-supplied metadata dict object after the call (`none` when the
caller passed `None`): Python's `metadata = metadata or {}` keeps the
caller's dict object aliased exactly when that dict is truthy
(non-empty), so the later `metadata["agent"] = agent` mutates the
caller's dict in exactly that case. -/
structure SaveResult (α : Type) where
  storage_calls : List (α × StrDict PyVal)
  caller_metadata_after : Option (StrDict PyVal)
deriving DecidableEq

/-- Model of `Memory.save`: normalises the metadata with
`metadata = metadata or {}`, sets `metadata["agent"] = agent` when
`agent` is truthy, and calls `storage.save(value, metadata)` once. -/
def Memory.save {α : Type} (value : α) (metadata : Option (StrDict PyVal))
    (agent : Option String) : SaveResult α :=
  let m0 : StrDict PyVal :=
    match metadata with
    | none => []
    | some d => if d = [] then [] else d
  let m1 : StrDict PyVal :=
    if pyTruthyStr agent then dictSet m0 "agent" (PyVal.str (agent.getD "")) else m0
  { storage_calls := [(value, m1)]
    caller_metadata_after :=
      match metadata with
      | none => none
      | some d => if d = [] then some d else some m1 }

/- ------------------------------------------------------------------
   crewai/utilities/embedding_configurator.py
   ------------------------------------------------------------------ -/

/-- Process environment, as read by `os.getenv`. -/
def Environ : Type := String → Option String

/-- Fields of `urllib.parse.urlparse` inspected by `_validate_url`.
`urlparse` lives in the Python standard library, outside this
repository; the code only tests the truthiness of `.scheme` and
`.netloc`, so the development is parameterised over the parser. -/
structure UrlParseResult where
  scheme : String
  netloc : String

/-- Abstract `urllib.parse.urlparse`. -/
def UrlParser : Type := String → UrlParseResult

/-- Model of `EmbeddingConfigurator._validate_url`: accept the URL when
both `scheme` and `netloc` parse non-empty.  The `ValueError` raised in
the `try` block is caught by the `except Exception` clause and re-raised
with the message prefix `Invalid URL: `, hence the doubled message. -/
def validate_url (urlparse : UrlParser) (url : String) : Except String String :=
  let result := urlparse url
  if result.scheme ≠ "" ∧ result.netloc ≠ "" then Except.ok url
  else Except.error ("Invalid URL: Invalid URL format: " ++ url)

/-- Embedding-function objects constructed by the configurators.  Each
constructor records the constructor called in the source together with
the keyword arguments the source passes (an `Option` argument is `none`
when the source passes `None`).  SDK-internal behaviour is outside this
repository and is not modelled.  Config values are modelled as strings
(they are passed through opaquely). -/
inductive EmbeddingFunctionSpec where
  | openAIDefault (api_key : Option String) (model_name : String)
  | openAIEF (api_key : Option String) (model_name : Option String)
      (api_base : Option String) (api_type : Option String)
      (api_version : Option String) (default_headers : Option String)
      (dimensions : Option String) (deployment_id : Option String)
      (organization_id : Option String)
  | ollamaEF (url : String) (model_name : String)
  | googleVertexEF (model_name : Option String) (api_key : Option String)
      (project_id : Option String) (region : Option String)
  | googleGenerativeAiEF (model_name : Option String) (api_key : Option String)
      (task_type : Option String)
  | cohereEF (model_name : Option String) (api_key : Option String)
  | voyageAIEF (model_name : Option String) (api_key : Option String)
  | amazonBedrockEF (session : Option String) (model_name : Option String)
  | huggingFaceServerEF (url : Option String)
  | watsonEF (config : StrDict String)
deriving DecidableEq

/-- Model of `EmbeddingConfigurator._create_default_embedding_function`:
an `OpenAIEmbeddingFunction` built from the `OPENAI_API_KEY` environment
variable and the fixed model `text-embedding-3-small` (all other
constructor arguments left at their SDK defaults, hence the dedicated
`openAIDefault` constructor). -/
def create_default_embedding_function (env : Environ) : EmbeddingFunctionSpec :=
  EmbeddingFunctionSpec.openAIDefault (env "OPENAI_API_KEY") "text-embedding-3-small"

/-- Model of `EmbeddingConfigurator._configure_openai`. -/
def configure_openai (env : Environ) (config : StrDict String)
    (model_name : Option String) : Except String EmbeddingFunctionSpec :=
  Except.ok (EmbeddingFunctionSpec.openAIEF
    (pyOrStr (dictGet config "api_key") (env "OPENAI_API_KEY"))
    model_name
    (dictGet config "api_base")
    (dictGet config "api_type")
    (dictGet config "api_version")
    (dictGet config "default_headers")
    (dictGet config "dimensions")
    (dictGet config "deployment_id")
    (dictGet config "organization_id"))

/-- Model of `EmbeddingConfigurator._configure_azure`: same SDK
constructor as openai, `api_type` defaulting to `"azure"`, no
environment fallback for the api key. -/
def configure_azure (config : StrDict String)
    (model_name : Option String) : Except String EmbeddingFunctionSpec :=
  Except.ok (EmbeddingFunctionSpec.openAIEF
    (dictGet config "api_key")
    model_name
    (dictGet config "api_base")
    (some ((dictGet config "api_type").getD "azure"))
    (dictGet config "api_version")
    (dictGet config "default_headers")
    (dictGet config "dimensions")
    (dictGet config "deployment_id")
    (dictGet config "organization_id"))

/-- URL selected by `_configure_ollama`: the priority chain
`url or api_url or base_url or api_base or the localhost default`
(Python `or`, so falsy values are skipped). -/
def ollama_selected_url (config : StrDict String) : String :=
  pyOrStrD
    (pyOrStr (pyOrStr (pyOrStr (dictGet config "url") (dictGet config "api_url"))
      (dictGet config "base_url")) (dictGet config "api_base"))
    "http://localhost:11434/api/embeddings"

/-- Model of `EmbeddingConfigurator._configure_ollama`: require a truthy
model name, select the URL by the priority chain, validate it, and build
an `OllamaEmbeddingFunction` from the validated URL and model name. -/
def configure_ollama (urlparse : UrlParser) (config : StrDict String)
    (model_name : Option String) : Except String EmbeddingFunctionSpec :=
  if ¬ pyTruthyStr model_name then
    Except.error "Model name is required for Ollama embedder configuration"
  else
    match validate_url urlparse (ollama_selected_url config) with
    | Except.error e => Except.error e
    | Except.ok validated_url =>
        Except.ok (EmbeddingFunctionSpec.ollamaEF validated_url (model_name.getD ""))

/-- Model of `EmbeddingConfigurator._configure_vertexai`. -/
def configure_vertexai (config : StrDict String)
    (model_name : Option String) : Except String EmbeddingFunctionSpec :=
  Except.ok (EmbeddingFunctionSpec.googleVertexEF
    model_name
    (dictGet config "api_key")
    (dictGet config "project_id")
    (dictGet config "region"))

/-- Model of `EmbeddingConfigurator._configure_google`. -/
def configure_google (config : StrDict String)
    (model_name : Option String) : Except String EmbeddingFunctionSpec :=
  Except.ok (EmbeddingFunctionSpec.googleGenerativeAiEF
    model_name
    (dictGet config "api_key")
    (dictGet config "task_type"))

/-- Model of `EmbeddingConfigurator._configure_cohere`. -/
def configure_cohere (config : StrDict String)
    (model_name : Option String) : Except String EmbeddingFunctionSpec :=
  Except.ok (EmbeddingFunctionSpec.cohereEF model_name (dictGet config "api_key"))

/-- Model of `EmbeddingConfigurator._configure_voyageai`. -/
def configure_voyageai (config : StrDict String)
    (model_name : Option String) : Except String EmbeddingFunctionSpec :=
  Except.ok (EmbeddingFunctionSpec.voyageAIEF model_name (dictGet config "api_key"))

/-- Model of `EmbeddingConfigurator._configure_bedrock`: the
`model_name` keyword is included in the constructor call exactly when
`model_name` is not `None` (the second argument being `none` models the
omitted keyword). -/
def configure_bedrock (config : StrDict String)
    (model_name : Option String) : Except String EmbeddingFunctionSpec :=
  Except.ok (EmbeddingFunctionSpec.amazonBedrockEF (dictGet config "session") model_name)

/-- Model of `EmbeddingConfigurator._configure_huggingface`: only the
`api_url` config key is consulted; `model_name` is ignored. -/
def configure_huggingface (config : StrDict String)
    (model_name : Option String) : Except String EmbeddingFunctionSpec :=
  Except.ok (EmbeddingFunctionSpec.huggingFaceServerEF (dictGet config "api_url"))

/-- Model of `EmbeddingConfigurator._configure_watson` (assuming the IBM
Watson dependencies are installed): returns a `WatsonEmbeddingFunction`
closure capturing the whole config; `model_name` is ignored. -/
def configure_watson (config : StrDict String)
    (model_name : Option String) : Except String EmbeddingFunctionSpec :=
  Except.ok (EmbeddingFunctionSpec.watsonEF config)

/-- Model of `EmbeddingConfigurator._configure_custom`.  In the source
the `embedder` config value must be an `EmbeddingFunction` instance or a
callable producing one; with config values modelled as opaque strings it
is neither, so the final `else` branch raises.  (The source function
takes only `config`.) -/
def configure_custom (config : StrDict String) : Except String EmbeddingFunctionSpec :=
  let custom_embedder := dictGet config "embedder"
  match custom_embedder with
  | _ => Except.error
      "Custom embedder must be an instance of `EmbeddingFunction` or a callable that creates one"

/-- Model of `self.embedding_functions`, the provider dispatch table
built in `EmbeddingConfigurator.__init__`.  All entries are stored with
the binary signature `(config, model_name)`; the `custom` entry wraps
the unary `_configure_custom` and ignores `model_name`, mirroring the
call-site arity dispatch in `configure_embedder`. -/
def embedding_functions (env : Environ) (urlparse : UrlParser) :
    List (String × (StrDict String → Option String → Except String EmbeddingFunctionSpec)) :=
  [ ("openai", configure_openai env),
    ("azure", configure_azure),
    ("ollama", configure_ollama urlparse),
    ("vertexai", configure_vertexai),
    ("google", configure_google),
    ("cohere", configure_cohere),
    ("voyageai", configure_voyageai),
    ("bedrock", configure_bedrock),
    ("huggingface", configure_huggingface),
    ("watson", configure_watson),
    ("custom", fun config _ => configure_custom config) ]

/-- Keys of the dispatch table, in order. -/
def supported_providers : List String :=
  ["openai", "azure", "ollama", "vertexai", "google", "cohere",
   "voyageai", "bedrock", "huggingface", "watson", "custom"]

/-- Model of the `embedder_config` argument: a dict read only at the
keys `"provider"` and `"config"`. -/
structure EmbedderConfig where
  provider : Option String
  config : Option (StrDict String)

/-- Python `str(x)` on an optional string: `None` prints as `"None"`. -/
def pyStrOfOpt : Option String → String
  | none => "None"
  | some s => s

/-- Single-quote character, as used by Python `repr` of a string. -/
def squote : String := String.singleton (Char.ofNat 39)

/-- Python `str(list_of_strings)`: bracketed, comma separated, each
element single-quoted. -/
def pyReprStrList (l : List String) : String :=
  "[" ++ String.intercalate ", " (l.map (fun s => squote ++ s ++ squote)) ++ "]"

/-- Message of the exception raised for an unsupported provider. -/
def unsupported_provider_message (provider : Option String) : String :=
  "Unsupported embedding provider: " ++ pyStrOfOpt provider
    ++ (", supported providers: " ++ pyReprStrList supported_providers)

/-- Model of `EmbeddingConfigurator.configure_embedder`: default
embedding function when `embedder_config` is `None`; otherwise dispatch
through the provider table, with `model_name = config.get("model")` for
every provider except `custom`, for which the configurator is applied to
`config` alone. -/
def configure_embedder (env : Environ) (urlparse : UrlParser)
    (embedder_config : Option EmbedderConfig) : Except String EmbeddingFunctionSpec :=
  match embedder_config with
  | none => Except.ok (create_default_embedding_function env)
  | some ec =>
    let provider := ec.provider
    let config := ec.config.getD []
    let model_name := if provider ≠ some "custom" then dictGet config "model" else none
    match provider.bind
        (fun p => (embedding_functions env urlparse).find? (fun q => q.1 == p)) with
    | none => Except.error (unsupported_provider_message provider)
    | some entry =>
      if provider == some "custom" then configure_custom config
      else entry.2 config model_name

/- ------------------------------------------------------------------
   crewai/utilities/evaluators/crew_evaluator_handler.py
   ------------------------------------------------------------------ -/

/-- Python `int()` truncation (toward zero) of a rational: the floor for
non-negative arguments, the negated floor of the negation otherwise. -/
def pyTruncQ (q : ℚ) : ℤ :=
  if 0 ≤ q then ⌊q⌋ else -⌊-q⌋

/-- Coercion of an integer into the rational numbers modelling Python
floats (Python's implicit int-to-float conversion in true division). -/
def qOfInt (z : ℤ) : ℚ := (z : ℚ)

/-- Division as Python performs it: raises `ZeroDivisionError` on a zero
divisor. -/
def pyDivQ (a b : ℚ) : Except String ℚ :=
  if b = 0 then Except.error "ZeroDivisionError: division by zero"
  else Except.ok (a / b)

/-- List indexing as Python performs it: raises `IndexError` when out of
range. -/
def pyIndexQ (l : List ℚ) (i : Nat) : Except String ℚ :=
  match l.get? i with
  | some x => Except.ok x
  | none => Except.error "IndexError: list index out of range"

/-- Python `zip(*lists)` restricted to lists of rationals: tuples of
the i-th elements, truncated at the shortest list; `zip()` of no lists
is empty. -/
def pyZipValues (ls : List (List ℚ)) : List (List ℚ) :=
  match (ls.map List.length).min? with
  | none => []
  | some m => (List.range m).map (fun i => ls.map (fun l => l.getD i 0))

/-- Sequencing of a fallible loop body over a list (a Python `for` loop
or comprehension in which an exception aborts the whole computation). -/
def mapE {α β : Type} (f : α → Except String β) : List α → Except String (List β)
  | [] => Except.ok []
  | x :: xs =>
    match f x with
    | Except.error e => Except.error e
    | Except.ok y =>
      match mapE f xs with
      | Except.error e => Except.error e
      | Except.ok ys => Except.ok (y :: ys)

/-- Model of a `defaultdict(list)` with integer keys, as an
insertion-ordered association list. -/
abbrev RunDict : Type := List (Nat × List ℚ)

/-- Read `d[k]` from a `defaultdict(list)`: the stored list, or `[]`
when the key is absent. -/
def ddGet (d : RunDict) (k : Nat) : List ℚ :=
  match d with
  | [] => []
  | (k0, v) :: rest => if k0 == k then v else ddGet rest k

/-- Python `d[k].append(x)` on a `defaultdict(list)`: append to the
stored list in place, inserting the key (at the end, in insertion order)
with `[x]` when absent. -/
def ddAppend (d : RunDict) (k : Nat) (x : ℚ) : RunDict :=
  match d with
  | [] => [(k, [x])]
  | (k0, v) :: rest =>
    if k0 == k then (k0, v ++ [x]) :: rest else (k0, v) :: ddAppend rest k x

/-- Model of `crewai.task.Task` restricted to the fields the evaluator
reads and writes: the description (used to match the task output),
`_execution_time`, and whether `_setup_for_evaluating` has assigned the
evaluation callback to the task. -/
structure EvalTask where
  description : String
  execution_time : ℚ
  callback_assigned : Bool
deriving DecidableEq

/-- Model of `crewai.tasks.task_output.TaskOutput` restricted to the
fields `evaluate` reads.  A `TaskOutput` instance is always truthy
(pydantic models define neither `__bool__` nor `__len__`), so the
`not task_output` half of the guard in `evaluate` never fires. -/
structure TaskOutputModel where
  description : String
  raw : String
deriving DecidableEq

/-- Model of the value returned by `evaluation_task.execute_sync()`:
`pydantic = some q` when `evaluation_result.pydantic` is a
`TaskEvaluationPydanticOutput` with `quality = q`, and `none` when it is
anything else (the `isinstance` check fails). -/
structure EvaluationResultModel where
  pydantic : Option ℚ
deriving DecidableEq

/-- Class-level mutable state of `CrewEvaluator`: the two
`defaultdict(list)` class attributes `tasks_scores` and
`run_execution_times`.  They are declared on the class (lines 46-47) and
only ever mutated in place (`self.tasks_scores[...]` never assigns the
attribute), so they are shared by every instance.  The class attribute
`iteration = 0` is an immutable int: `set_iteration` assigns
`self.iteration`, which creates an instance attribute shadowing it, so
it is modelled as a per-instance `Option Nat` with class default 0. -/
structure CrewEvaluatorClassState where
  tasks_scores : RunDict
  run_execution_times : RunDict
deriving DecidableEq

/-- Instance attributes of `CrewEvaluator` relevant to the claims:
the crew's tasks, the llm label, and the instance-level `iteration`
shadow (absent until `set_iteration` is called). -/
structure CrewEvaluator where
  crew_tasks : List EvalTask
  llm : String
  iteration : Option Nat
deriving DecidableEq

/-- Value of `self.iteration`: the instance attribute when set, else the
class attribute `0`. -/
def CrewEvaluator.iterationValue (inst : CrewEvaluator) : Nat :=
  inst.iteration.getD 0

/-- Model of `CrewEvaluator._setup_for_evaluating`: assigns
`task.callback = self.evaluate` on every crew task. -/
def setup_for_evaluating (tasks : List EvalTask) : List EvalTask :=
  tasks.map (fun t => { t with callback_assigned := true })

/-- Model of `CrewEvaluator.__init__`: stores the crew and llm on the
instance, runs `_setup_for_evaluating`, and touches neither
`tasks_scores`, `run_execution_times` nor `iteration`; the shared class
state is returned unchanged. -/
def CrewEvaluator.init (cs : CrewEvaluatorClassState) (crew_tasks : List EvalTask)
    (llm : String) : CrewEvaluator × CrewEvaluatorClassState :=
  ({ crew_tasks := setup_for_evaluating crew_tasks, llm := llm, iteration := none }, cs)

/-- Model of `CrewEvaluator.set_iteration`: assigns `self.iteration`,
creating the instance attribute. -/
def CrewEvaluator.set_iteration (inst : CrewEvaluator) (iteration : Nat) : CrewEvaluator :=
  { inst with iteration := some iteration }

/-- Model of `CrewEvaluator.evaluate`.  The first matching crew task (by
description) is evaluated; `evaluation_result` models the value of
`evaluation_task.execute_sync()` (an external LLM call).  The result is
the class state after the call together with the message of the raised
`ValueError`, if any; telemetry is an external side effect and is not
modelled. -/
def CrewEvaluator.evaluate (inst : CrewEvaluator) (cs : CrewEvaluatorClassState)
    (task_output : TaskOutputModel) (evaluation_result : EvaluationResultModel) :
    CrewEvaluatorClassState × Option String :=
  let current_task := inst.crew_tasks.find? (fun t => t.description == task_output.description)
  match current_task with
  | none => (cs, some "Task to evaluate and task output are required for evaluation")
  | some t =>
    match evaluation_result.pydantic with
    | some quality =>
      ({ tasks_scores := ddAppend cs.tasks_scores inst.iterationValue quality,
         run_execution_times :=
           ddAppend cs.run_execution_times inst.iterationValue t.execution_time }, none)
    | none => (cs, some "Evaluation result is not in the expected format")

/-- Numeric content of the table printed by
`print_crew_evaluation_result`: per-task rows (scores across runs and
the displayed average), the per-run crew scores, the overall crew
average, the displayed per-run execution times, and their displayed
average. -/
structure EvaluationDisplay where
  task_rows : List (List ℚ × ℚ)
  crew_scores : List ℚ
  crew_average : ℚ
  run_exec_times : List ℤ
  execution_time_avg : ℤ
deriving DecidableEq

/-- Body of the per-task display loop of `print_crew_evaluation_result`:
`task_scores = [tasks_scores[run][task_index] for run in 1..n]` and
`avg_score = task_averages[task_index]`. -/
def evaluation_task_row (tasks_scores : RunDict) (task_averages : List ℚ)
    (task_index : Nat) : Except String (List ℚ × ℚ) :=
  match mapE (fun run => pyIndexQ (ddGet tasks_scores run) task_index)
      (List.range' 1 tasks_scores.length) with
  | Except.error e => Except.error e
  | Except.ok task_scores =>
    match pyIndexQ task_averages task_index with
    | Except.error e => Except.error e
    | Except.ok avg_score => Except.ok (task_scores, avg_score)

/-- Model of `CrewEvaluator.print_crew_evaluation_result`, restricted to
the numbers it computes and displays (the rich table layout and the
agent-name column are presentation only).  `crew_task_count` is
`len(self.crew.tasks)`.  Each `match` mirrors one fallible step of the
source, in source order, an exception aborting the rest. -/
def print_crew_evaluation_result (crew_task_count : Nat)
    (tasks_scores run_execution_times : RunDict) : Except String EvaluationDisplay :=
  match mapE (fun scores => pyDivQ scores.sum (scores.length : ℚ))
      (pyZipValues (tasks_scores.map Prod.snd)) with
  | Except.error e => Except.error e
  | Except.ok task_averages =>
    match pyDivQ task_averages.sum (task_averages.length : ℚ) with
    | Except.error e => Except.error e
    | Except.ok crew_average =>
      match mapE (evaluation_task_row tasks_scores task_averages)
          (List.range crew_task_count) with
      | Except.error e => Except.error e
      | Except.ok task_rows =>
        match mapE (fun run => pyDivQ (ddGet tasks_scores run).sum
              ((ddGet tasks_scores run).length : ℚ))
            (List.range' 1 tasks_scores.length) with
        | Except.error e => Except.error e
        | Except.ok crew_scores =>
          let run_exec_times := run_execution_times.map (fun p => pyTruncQ p.2.sum)
          match pyDivQ ((run_exec_times.map qOfInt).sum)
              ((run_exec_times.length : ℚ)) with
          | Except.error e => Except.error e
          | Except.ok avg_q =>
            Except.ok { task_rows := task_rows, crew_scores := crew_scores,
                        crew_average := crew_average, run_exec_times := run_exec_times,
                        execution_time_avg := pyTruncQ avg_q }

/-- Formalisation of the execution-time clause of the specification
sentence under test, in the spec's words: the displayed average
execution time is the integer truncation of the mean of the per-run
summed execution times (the raw sums, not themselves truncated).  Kept
separate from the source translation above for comparison. -/
def claimed_execution_time_avg (run_execution_times : RunDict) : ℤ :=
  pyTruncQ ((run_execution_times.map (fun p => p.2.sum)).sum
    / ((run_execution_times.length : ℕ) : ℚ))

/-- Trivial environment with no variables set, for concrete instances. -/
def trivialEnviron : Environ := fun _ => none

/-- URL parser that parses nothing, for concrete instances. -/
def trivialUrlParser : UrlParser := fun _ => UrlParseResult.mk "" ""

/-- URL parser recognising exactly the Ollama localhost default, for
concrete instances. -/
def localhostUrlParser : UrlParser := fun url =>
  if url = "http://localhost:11434/api/embeddings" then
    UrlParseResult.mk "http" "localhost:11434"
  else UrlParseResult.mk "" ""

/- ==================================================================
   Theorems
   ================================================================== -/

/-- Key lookup after a dict assignment: the assigned key reads the new
value, every other key is unchanged. -/
theorem dictGet_dictSet {V : Type} (d : StrDict V) (k k' : String) (v : V) :
    dictGet (dictSet d k v) k' = if k = k' then some v else dictGet d k' := by
  induction d with
  | nil =>
    simp only [dictSet, dictGet]
    by_cases h : k = k' <;> simp [h]
  | cons p rest ih =>
    obtain ⟨k0, v0⟩ := p
    by_cases h0 : k0 = k
    · have hb : (k0 == k) = true := beq_iff_eq.mpr h0
      simp only [dictSet, hb, if_true, dictGet]
      by_cases h : k = k'
      · simp [h]
      · have hb2 : (k0 == k') = false := beq_eq_false_iff_ne.mpr (h0 ▸ h)
        simp [h, hb2, dictGet]
    · have hb : (k0 == k) = false := beq_eq_false_iff_ne.mpr h0
      simp only [dictSet, hb, Bool.false_eq_true, if_false, dictGet, ih]
      by_cases h1 : k0 = k'
      · have hk : k ≠ k' := fun hh => h0 (h1.trans hh.symm)
        simp [beq_iff_eq.mpr h1, hk]
      · simp [beq_eq_false_iff_ne.mpr h1]

/-- C5: for every query, limit and score threshold, `Memory.search`
returns exactly the storage's search result for the same arguments, with
defaults `limit = 3` and `score_threshold = 0.35` when omitted, and no
transformation of the result. -/
theorem memory_search_is_passthrough {α : Type} (m : Memory α) (query : String)
    (limit : Nat) (score_threshold : ℚ) :
    Memory.search m query limit score_threshold
        = m.storage.search query limit score_threshold ∧
    Memory.search m query = m.storage.search query 3 (35 / 100) :=
  ⟨rfl, rfl⟩

/-- C6: `Memory.save` calls `storage.save` exactly once, with the value
unchanged and a metadata dict equal to the given one (empty when `None`)
with the key `"agent"` bound to the agent string exactly when the agent
is truthy, all other keys keeping their given values. -/
theorem memory_save_storage_call {α : Type} (value : α)
    (metadata : Option (StrDict PyVal)) (agent : Option String) :
    ∃ m, (Memory.save value metadata agent).storage_calls = [(value, m)] ∧
      ∀ k, dictGet m k =
        if pyTruthyStr agent = true ∧ k = "agent" then some (PyVal.str (agent.getD ""))
        else dictGet (metadata.getD []) k := by
  refine ⟨_, rfl, ?_⟩
  intro k
  have update : ∀ (m0 : StrDict PyVal),
      dictGet (if pyTruthyStr agent then
          dictSet m0 "agent" (PyVal.str (agent.getD "")) else m0) k
        = if pyTruthyStr agent = true ∧ k = "agent"
            then some (PyVal.str (agent.getD "")) else dictGet m0 k := by
    intro m0
    cases ha : pyTruthyStr agent
    · simp
    · simp only [ha, if_true, dictGet_dictSet, true_and]
      by_cases hk : k = "agent"
      · simp [hk]
      · have : "agent" ≠ k := fun h => hk h.symm
        simp [this, hk]
  cases metadata with
  | none => exact update []
  | some d =>
    by_cases hd : d = []
    · simpa [Memory.save, hd] using update []
    · simpa [Memory.save, hd] using update d

/-- C8, counterexample: the claim fails for the empty (falsy) caller
dict.  With `metadata = {}` and a truthy agent, `metadata or {}` builds
a fresh dict, so the caller's dict is left without an `"agent"` key. -/
theorem memory_save_empty_dict_not_mutated :
    (Memory.save (PyVal.str "v") (some ([] : StrDict PyVal)) (some "writer")).caller_metadata_after
        = some [] ∧
    dictGet ([] : StrDict PyVal) "agent" = none :=
  ⟨rfl, rfl⟩

/-- C8, amended: for every caller-supplied non-empty metadata dict and
truthy agent string, `Memory.save` mutates the caller's dict in place:
after the call it holds `"agent"` bound to the agent string, and the
very same dict (no fresh copy) is what is passed to `storage.save`. -/
theorem memory_save_mutates_nonempty_metadata {α : Type} (value : α)
    (d : StrDict PyVal) (agent : String) (hd : d ≠ []) (ha : agent ≠ "") :
    (Memory.save value (some d) (some agent)).caller_metadata_after
        = some (dictSet d "agent" (PyVal.str agent)) ∧
    (Memory.save value (some d) (some agent)).storage_calls
        = [(value, dictSet d "agent" (PyVal.str agent))] ∧
    dictGet (dictSet d "agent" (PyVal.str agent)) "agent" = some (PyVal.str agent) := by
  have ht : pyTruthyStr (some agent) = true := by simp [pyTruthyStr, ha]
  refine ⟨?_, ?_, ?_⟩
  · simp [Memory.save, hd, ht]
  · simp [Memory.save, hd, ht]
  · simp [dictGet_dictSet]

/-- C8, witness for the amended theorem at a concrete input. -/
theorem memory_save_mutates_nonempty_metadata_witness :
    (Memory.save (PyVal.num 1) (some [("k", PyVal.num 2)]) (some "writer")).caller_metadata_after
        = some (dictSet [("k", PyVal.num 2)] "agent" (PyVal.str "writer")) ∧
    (Memory.save (PyVal.num 1) (some [("k", PyVal.num 2)]) (some "writer")).storage_calls
        = [(PyVal.num 1, dictSet [("k", PyVal.num 2)] "agent" (PyVal.str "writer"))] ∧
    dictGet (dictSet [("k", PyVal.num 2)] "agent" (PyVal.str "writer")) "agent"
        = some (PyVal.str "writer") :=
  memory_save_mutates_nonempty_metadata (PyVal.num 1) [("k", PyVal.num 2)] "writer"
    (by decide) (by decide)

/-- C9: the evaluation score state lives on the class, not the instance:
`__init__` returns the shared class state untouched, a freshly
constructed evaluator reads `iteration = 0` from the class, and an
evaluator constructed after another one still observes the same
accumulated scores and execution times. -/
theorem crew_evaluator_init_preserves_class_state (cs : CrewEvaluatorClassState)
    (tasks tasks2 : List EvalTask) (llm llm2 : String) :
    (CrewEvaluator.init cs tasks llm).2 = cs ∧
    (CrewEvaluator.init cs tasks llm).1.iterationValue = 0 ∧
    (CrewEvaluator.init ((CrewEvaluator.init cs tasks llm).2) tasks2 llm2).2 = cs :=
  ⟨rfl, rfl, rfl⟩

/-- C10: with no recorded scores, `print_crew_evaluation_result` raises
`ZeroDivisionError`: `task_averages` is empty and `crew_average` divides
by its length, zero. -/
theorem print_crew_evaluation_result_empty_raises (crew_task_count : Nat)
    (run_execution_times : RunDict) :
    print_crew_evaluation_result crew_task_count [] run_execution_times
        = Except.error "ZeroDivisionError: division by zero" :=
  rfl

/-- C2: `configure_embedder` is a pure dispatch table.  With no config
it builds the default OpenAI embedding function from the
`OPENAI_API_KEY` environment variable and model
`text-embedding-3-small`; for each of the eleven supported providers it
returns that provider's configurator applied to the nested config and
`config.get("model")` as the model name, except `custom`, whose
configurator receives the config alone. -/
theorem configure_embedder_dispatch (env : Environ) (urlparse : UrlParser)
    (cfg : StrDict String) :
    configure_embedder env urlparse none
        = Except.ok (EmbeddingFunctionSpec.openAIDefault
            (env "OPENAI_API_KEY") "text-embedding-3-small") ∧
    configure_embedder env urlparse (some ⟨some "openai", some cfg⟩)
        = configure_openai env cfg (dictGet cfg "model") ∧
    configure_embedder env urlparse (some ⟨some "azure", some cfg⟩)
        = configure_azure cfg (dictGet cfg "model") ∧
    configure_embedder env urlparse (some ⟨some "ollama", some cfg⟩)
        = configure_ollama urlparse cfg (dictGet cfg "model") ∧
    configure_embedder env urlparse (some ⟨some "vertexai", some cfg⟩)
        = configure_vertexai cfg (dictGet cfg "model") ∧
    configure_embedder env urlparse (some ⟨some "google", some cfg⟩)
        = configure_google cfg (dictGet cfg "model") ∧
    configure_embedder env urlparse (some ⟨some "cohere", some cfg⟩)
        = configure_cohere cfg (dictGet cfg "model") ∧
    configure_embedder env urlparse (some ⟨some "voyageai", some cfg⟩)
        = configure_voyageai cfg (dictGet cfg "model") ∧
    configure_embedder env urlparse (some ⟨some "bedrock", some cfg⟩)
        = configure_bedrock cfg (dictGet cfg "model") ∧
    configure_embedder env urlparse (some ⟨some "huggingface", some cfg⟩)
        = configure_huggingface cfg (dictGet cfg "model") ∧
    configure_embedder env urlparse (some ⟨some "watson", some cfg⟩)
        = configure_watson cfg (dictGet cfg "model") ∧
    configure_embedder env urlparse (some ⟨some "custom", some cfg⟩)
        = configure_custom cfg :=
  ⟨rfl, rfl, rfl, rfl, rfl, rfl, rfl, rfl, rfl, rfl, rfl, rfl⟩

/-- Keys of the dispatch table are exactly the supported providers. -/
theorem embedding_functions_keys (env : Environ) (urlparse : UrlParser) :
    (embedding_functions env urlparse).map Prod.fst = supported_providers :=
  rfl

set_option maxRecDepth 8192 in
/-- C3: for a non-`None` embedder config whose provider is not a key of
the dispatch table, `configure_embedder` raises with a message that
names the unsupported provider and lists the supported providers, and
the table lookup selects no configurator. -/
theorem configure_embedder_unsupported_provider (env : Environ) (urlparse : UrlParser)
    (ec : EmbedderConfig) (h : ∀ p, ec.provider = some p → p ∉ supported_providers) :
    configure_embedder env urlparse (some ec)
        = Except.error (unsupported_provider_message ec.provider) ∧
    ec.provider.bind
        (fun p => (embedding_functions env urlparse).find? (fun q => q.1 == p)) = none ∧
    (pyStrOfOpt ec.provider).data <:+: (unsupported_provider_message ec.provider).data ∧
    ∀ q ∈ supported_providers,
      q.data <:+: (unsupported_provider_message ec.provider).data := by
  have hfind : ec.provider.bind
      (fun p => (embedding_functions env urlparse).find? (fun q => q.1 == p)) = none := by
    cases hp : ec.provider with
    | none => rfl
    | some p =>
      simp only [Option.some_bind]
      refine List.find?_eq_none.mpr ?_
      intro x hx hbeq
      have hx1 : x.1 ∈ supported_providers := by
        rw [← embedding_functions_keys env urlparse]
        exact List.mem_map_of_mem Prod.fst hx
      have : x.1 = p := by simpa using hbeq
      exact h p hp (this ▸ hx1)
  refine ⟨?_, hfind, ?_, ?_⟩
  · simp only [configure_embedder, hfind]
  · refine ⟨"Unsupported embedding provider: ".data,
      (", supported providers: " ++ pyReprStrList supported_providers).data, ?_⟩
    simp [unsupported_provider_message, String.data_append]
  · intro q hq
    have htail : q.data <:+: (", supported providers: "
        ++ pyReprStrList supported_providers).data := by
      fin_cases hq <;> decide
    have hmsg : (unsupported_provider_message ec.provider).data
        = ("Unsupported embedding provider: " ++ pyStrOfOpt ec.provider).data
          ++ (", supported providers: " ++ pyReprStrList supported_providers).data := by
      simp [unsupported_provider_message, String.data_append]
    rw [hmsg]
    exact htail.trans (List.suffix_append _ _).isInfix

/-- C3, witness at the concrete unsupported provider `"foo"`. -/
theorem configure_embedder_unsupported_provider_witness :
    configure_embedder trivialEnviron trivialUrlParser (some ⟨some "foo", none⟩)
        = Except.error (unsupported_provider_message (some "foo")) ∧
    (some "foo").bind
        (fun p => (embedding_functions trivialEnviron trivialUrlParser).find?
          (fun q => q.1 == p)) = none ∧
    (pyStrOfOpt (some "foo")).data <:+: (unsupported_provider_message (some "foo")).data ∧
    ∀ q ∈ supported_providers,
      q.data <:+: (unsupported_provider_message (some "foo")).data :=
  configure_embedder_unsupported_provider trivialEnviron trivialUrlParser
    ⟨some "foo", none⟩
    (by
      intro p hp
      have hpe : "foo" = p := Option.some.inj hp
      subst hpe
      decide)

/-- C4: behaviour of the Ollama configurator.  A falsy model name raises
`ValueError`; the URL is selected by the priority order `url`, `api_url`,
`base_url`, `api_base`, then the localhost default; a selected URL whose
parse lacks a scheme or a netloc raises `ValueError`; otherwise the
result is an `OllamaEmbeddingFunction` built from the validated URL and
the model name. -/
theorem configure_ollama_spec (urlparse : UrlParser) (config : StrDict String)
    (model_name : Option String) :
    (pyTruthyStr model_name = false →
      configure_ollama urlparse config model_name
        = Except.error "Model name is required for Ollama embedder configuration") ∧
    (pyTruthyStr (dictGet config "url") = true →
      ollama_selected_url config = (dictGet config "url").getD "") ∧
    (pyTruthyStr (dictGet config "url") = false →
      pyTruthyStr (dictGet config "api_url") = true →
      ollama_selected_url config = (dictGet config "api_url").getD "") ∧
    (pyTruthyStr (dictGet config "url") = false →
      pyTruthyStr (dictGet config "api_url") = false →
      pyTruthyStr (dictGet config "base_url") = true →
      ollama_selected_url config = (dictGet config "base_url").getD "") ∧
    (pyTruthyStr (dictGet config "url") = false →
      pyTruthyStr (dictGet config "api_url") = false →
      pyTruthyStr (dictGet config "base_url") = false →
      pyTruthyStr (dictGet config "api_base") = true →
      ollama_selected_url config = (dictGet config "api_base").getD "") ∧
    (pyTruthyStr (dictGet config "url") = false →
      pyTruthyStr (dictGet config "api_url") = false →
      pyTruthyStr (dictGet config "base_url") = false →
      pyTruthyStr (dictGet config "api_base") = false →
      ollama_selected_url config = "http://localhost:11434/api/embeddings") ∧
    (pyTruthyStr model_name = true →
      ((urlparse (ollama_selected_url config)).scheme = ""
          ∨ (urlparse (ollama_selected_url config)).netloc = "") →
      configure_ollama urlparse config model_name
        = Except.error ("Invalid URL: Invalid URL format: " ++ ollama_selected_url config)) ∧
    (pyTruthyStr model_name = true →
      (urlparse (ollama_selected_url config)).scheme ≠ "" →
      (urlparse (ollama_selected_url config)).netloc ≠ "" →
      configure_ollama urlparse config model_name
        = Except.ok (EmbeddingFunctionSpec.ollamaEF (ollama_selected_url config)
            (model_name.getD ""))) := by
  refine ⟨?_, ?_, ?_, ?_, ?_, ?_, ?_, ?_⟩
  · intro hm
    simp [configure_ollama, hm]
  · intro h1
    simp [ollama_selected_url, pyOrStr, pyOrStrD, h1]
  · intro h1 h2
    simp [ollama_selected_url, pyOrStr, pyOrStrD, h1, h2]
  · intro h1 h2 h3
    simp [ollama_selected_url, pyOrStr, pyOrStrD, h1, h2, h3]
  · intro h1 h2 h3 h4
    simp [ollama_selected_url, pyOrStr, pyOrStrD, h1, h2, h3, h4]
  · intro h1 h2 h3 h4
    simp [ollama_selected_url, pyOrStr, pyOrStrD, h1, h2, h3, h4]
  · intro hm hv
    rcases hv with hv | hv <;>
      simp [configure_ollama, validate_url, hm, hv]
  · intro hm hs hn
    simp [configure_ollama, validate_url, hm, hs, hn]

/-- C4, witness: with an empty config the localhost default URL is
selected, validates, and yields the Ollama embedding function. -/
theorem configure_ollama_spec_witness :
    configure_ollama localhostUrlParser [] (some "all-minilm")
        = Except.ok (EmbeddingFunctionSpec.ollamaEF
            "http://localhost:11434/api/embeddings" "all-minilm") := by
  have h := configure_ollama_spec localhostUrlParser [] (some "all-minilm")
  exact h.2.2.2.2.2.2.2 (by decide) (by decide) (by decide)

/-- Appending to a `defaultdict(list)` entry extends exactly that
entry. -/
theorem ddGet_ddAppend_self (d : RunDict) (k : Nat) (x : ℚ) :
    ddGet (ddAppend d k x) k = ddGet d k ++ [x] := by
  induction d with
  | nil => simp [ddAppend, ddGet]
  | cons p rest ih =>
    obtain ⟨k0, v⟩ := p
    by_cases h0 : k0 = k
    · simp [ddAppend, ddGet, beq_iff_eq.mpr h0]
    · simp [ddAppend, ddGet, beq_eq_false_iff_ne.mpr h0, ih]

/-- Appending to a `defaultdict(list)` entry leaves every other entry
unchanged. -/
theorem ddGet_ddAppend_ne (d : RunDict) (k k' : Nat) (x : ℚ) (h : k ≠ k') :
    ddGet (ddAppend d k x) k' = ddGet d k' := by
  induction d with
  | nil => simp [ddAppend, ddGet, beq_eq_false_iff_ne.mpr h]
  | cons p rest ih =>
    obtain ⟨k0, v⟩ := p
    by_cases h0 : k0 = k
    · have hne : k0 ≠ k' := by rw [h0]; exact h
      simp [ddAppend, ddGet, beq_iff_eq.mpr h0, hne]
    · simp [ddAppend, ddGet, beq_eq_false_iff_ne.mpr h0, ih]

/-- C7: `evaluate` raises `ValueError` exactly when no crew task has the
output's description or the evaluation result fails the
`TaskEvaluationPydanticOutput` check; a raising call leaves the score
state untouched; a successful call appends exactly one quality score and
one execution time at the current iteration, touching no other
iteration. -/
theorem crew_evaluator_evaluate_spec (inst : CrewEvaluator)
    (cs : CrewEvaluatorClassState) (out : TaskOutputModel)
    (res : EvaluationResultModel) :
    ((CrewEvaluator.evaluate inst cs out res).2 ≠ none ↔
      ((∀ t ∈ inst.crew_tasks, t.description ≠ out.description)
        ∨ res.pydantic = none)) ∧
    ((CrewEvaluator.evaluate inst cs out res).2 ≠ none →
      (CrewEvaluator.evaluate inst cs out res).1 = cs) ∧
    (∀ t0, inst.crew_tasks.find? (fun t => t.description == out.description) = some t0 →
      ∀ q, res.pydantic = some q →
        (CrewEvaluator.evaluate inst cs out res).2 = none ∧
        ddGet (CrewEvaluator.evaluate inst cs out res).1.tasks_scores inst.iterationValue
          = ddGet cs.tasks_scores inst.iterationValue ++ [q] ∧
        ddGet (CrewEvaluator.evaluate inst cs out res).1.run_execution_times
            inst.iterationValue
          = ddGet cs.run_execution_times inst.iterationValue ++ [t0.execution_time] ∧
        (∀ k, k ≠ inst.iterationValue →
          ddGet (CrewEvaluator.evaluate inst cs out res).1.tasks_scores k
            = ddGet cs.tasks_scores k ∧
          ddGet (CrewEvaluator.evaluate inst cs out res).1.run_execution_times k
            = ddGet cs.run_execution_times k)) := by
  cases hf : inst.crew_tasks.find? (fun t => t.description == out.description) with
  | none =>
    have hall : ∀ t ∈ inst.crew_tasks, t.description ≠ out.description := by
      intro t ht
      have := List.find?_eq_none.mp hf t ht
      simpa using this
    refine ⟨?_, ?_, ?_⟩
    · simp only [CrewEvaluator.evaluate, hf]
      exact ⟨fun _ => Or.inl hall, fun _ => Option.some_ne_none _⟩
    · intro _
      simp [CrewEvaluator.evaluate, hf]
    · intro t0 hsome
      exact Option.noConfusion hsome
  | some t1 =>
    have ht1mem : t1 ∈ inst.crew_tasks := List.mem_of_find?_eq_some hf
    have ht1desc : t1.description = out.description := by
      have := List.find?_some hf
      simpa using this
    cases hr : res.pydantic with
    | none =>
      refine ⟨?_, ?_, ?_⟩
      · simp only [CrewEvaluator.evaluate, hf, hr]
        simp
      · intro _
        simp [CrewEvaluator.evaluate, hf, hr]
      · intro t0 _ q hq
        exact Option.noConfusion hq
    | some q =>
      refine ⟨?_, ?_, ?_⟩
      · simp only [CrewEvaluator.evaluate, hf, hr]
        constructor
        · intro hcontra
          exact absurd rfl hcontra
        · intro hcases
          rcases hcases with hall | hnone
          · exact absurd ht1desc (hall t1 ht1mem)
          · exact absurd hnone (by simp)
      · intro hne
        exact absurd (by simp [CrewEvaluator.evaluate, hf, hr]) hne
      · intro t0 hsome q0 hq0
        have ht0 : t0 = t1 := by
          exact (Option.some.inj hsome).symm
        have hqq : q0 = q := by
          exact (Option.some.inj hq0).symm
        subst ht0
        subst hqq
        refine ⟨by simp [CrewEvaluator.evaluate, hf, hr], ?_, ?_, ?_⟩
        · simp [CrewEvaluator.evaluate, hf, hr, ddGet_ddAppend_self]
        · simp [CrewEvaluator.evaluate, hf, hr, ddGet_ddAppend_self]
        · intro k hk
          have hk' : inst.iterationValue ≠ k := fun hh => hk hh.symm
          constructor <;>
            simp [CrewEvaluator.evaluate, hf, hr, ddGet_ddAppend_ne _ _ _ _ hk']

/-- C7, witness: a matching task and a well-formed evaluation result
record one score and one execution time at iteration 1. -/
theorem crew_evaluator_evaluate_spec_witness :
    (CrewEvaluator.evaluate ⟨[⟨"T", 5, true⟩], "gpt", some 1⟩ ⟨[], []⟩
        ⟨"T", "raw"⟩ ⟨some 9⟩).2 = none ∧
    ddGet (CrewEvaluator.evaluate ⟨[⟨"T", 5, true⟩], "gpt", some 1⟩ ⟨[], []⟩
        ⟨"T", "raw"⟩ ⟨some 9⟩).1.tasks_scores 1 = [9] ∧
    ddGet (CrewEvaluator.evaluate ⟨[⟨"T", 5, true⟩], "gpt", some 1⟩ ⟨[], []⟩
        ⟨"T", "raw"⟩ ⟨some 9⟩).1.run_execution_times 1 = [5] := by
  have h := (crew_evaluator_evaluate_spec ⟨[⟨"T", 5, true⟩], "gpt", some 1⟩ ⟨[], []⟩
      ⟨"T", "raw"⟩ ⟨some 9⟩).2.2 ⟨"T", 5, true⟩ (by decide) 9 rfl
  exact ⟨h.1, h.2.1, h.2.2.1⟩

/-- A fallible loop whose body always succeeds returns the list of its
results. -/
theorem mapE_ok {α β : Type} (f : α → Except String β) (g : α → β) :
    ∀ (l : List α), (∀ x ∈ l, f x = Except.ok (g x)) →
      mapE f l = Except.ok (l.map g) := by
  intro l
  induction l with
  | nil => intro _; rfl
  | cons x xs ih =>
    intro h
    have hx := h x (List.mem_cons_self x xs)
    have hxs := ih (fun y hy => h y (List.mem_cons_of_mem x hy))
    simp [mapE, hx, hxs]

/-- Folding `min` over a constant list is the constant. -/
theorem foldl_min_const (T : Nat) :
    ∀ (l : List Nat), (∀ x ∈ l, x = T) → l.foldl min T = T := by
  intro l
  induction l with
  | nil => intro _; rfl
  | cons x xs ih =>
    intro h
    have hx : x = T := h x (List.mem_cons_self x xs)
    have : List.foldl min T (x :: xs) = List.foldl min T xs := by
      simp [hx]
    rw [this]
    exact ih (fun y hy => h y (List.mem_cons_of_mem x hy))

/-- Minimum of the lengths of a non-empty family of equal-length lists. -/
theorem len_min_of_uniform (ls : List (List ℚ)) (T : Nat) (hne : ls ≠ [])
    (hT : ∀ l ∈ ls, l.length = T) : (ls.map List.length).min? = some T := by
  cases ls with
  | nil => exact absurd rfl hne
  | cons l rest =>
    have hl : l.length = T := hT l (List.mem_cons_self l rest)
    simp only [List.map_cons, List.min?, hl]
    congr 1
    apply foldl_min_const
    intro x hx
    rcases List.mem_map.mp hx with ⟨y, hy, hxy⟩
    rw [← hxy]
    exact hT y (List.mem_cons_of_mem _ hy)

/-- Python `zip(*values)` of a non-empty family of equal-length lists is
the transpose, row `i` collecting the `i`-th element of every list. -/
theorem pyZipValues_uniform (ls : List (List ℚ)) (T : Nat) (hne : ls ≠ [])
    (hT : ∀ l ∈ ls, l.length = T) :
    pyZipValues ls = (List.range T).map (fun i => ls.map (fun l => l.getD i 0)) := by
  unfold pyZipValues
  rw [len_min_of_uniform ls T hne hT]

/-- Indexing a map over `List.range` in bounds. -/
theorem getD_map_range {β : Type} (g : Nat → β) (d : β) (T i : Nat) (hi : i < T) :
    ((List.range T).map g).getD i d = g i := by
  rw [List.getD_eq_getElem?_getD, List.getElem?_map, List.getElem?_range hi]
  rfl

/-- `defaultdict` reads over a run dict whose keys are `a .. a+n-1` in
order: key `a + i` reads the `i`-th stored list. -/
theorem ddGet_range1 (d : RunDict) :
    ∀ (a n i : Nat), d.map Prod.fst = List.range' a n → i < n →
      ddGet d (a + i) = (d.map Prod.snd).getD i [] := by
  induction d with
  | nil =>
    intro a n i h hi
    cases n with
    | zero => exact absurd hi (by omega)
    | succ m => rw [List.range'_succ a m 1] at h; exact absurd h (by simp)
  | cons p rest ih =>
    intro a n i h hi
    obtain ⟨k0, v⟩ := p
    cases n with
    | zero => exact absurd hi (by omega)
    | succ m =>
      rw [List.range'_succ a m 1] at h
      have hk0 : k0 = a := (List.cons.inj h).1
      have hrest : rest.map Prod.fst = List.range' (a + 1) m := (List.cons.inj h).2
      cases i with
      | zero =>
        simp [ddGet, hk0]
      | succ j =>
        have hne : k0 ≠ a + (j + 1) := by omega
        have hstep : ddGet ((k0, v) :: rest) (a + (j + 1)) = ddGet rest (a + (j + 1)) := by
          simp [ddGet, beq_eq_false_iff_ne.mpr hne]
        rw [hstep]
        have harith : a + (j + 1) = (a + 1) + j := by omega
        rw [harith]
        have hj : j < m := by omega
        simpa using ih (a + 1) m j hrest hj

/-- Mapping an index-wise read over `List.range l.length` is mapping
over the list itself. -/
theorem map_getD_range {α β : Type} (h : α → β) (dflt : α) :
    ∀ (l : List α),
      (List.range l.length).map (fun i => h (l.getD i dflt)) = l.map h := by
  intro l
  induction l with
  | nil => rfl
  | cons a as ih =>
    rw [List.length_cons, List.range_succ_eq_map]
    simp only [List.map_cons, List.getD_cons_zero, List.map_map]
    have htail : (List.range as.length).map
        ((fun i => h ((a :: as).getD i dflt)) ∘ Nat.succ) = as.map h := by
      rw [← ih]
      apply List.map_congr_left
      intro i _
      simp [Function.comp, List.getD_cons_succ]
    rw [htail]

/-- Indexing a list in bounds succeeds with the indexed element. -/
theorem pyIndexQ_ok (l : List ℚ) (i : Nat) (h : i < l.length) :
    pyIndexQ l i = Except.ok (l.getD i 0) := by
  unfold pyIndexQ
  rw [List.get?_eq_getElem?, List.getElem?_eq_getElem h, List.getD_eq_getElem?_getD,
    List.getElem?_eq_getElem h]
  rfl

/-- Division by a non-zero denominator succeeds. -/
theorem pyDivQ_ok (a b : ℚ) (hb : b ≠ 0) : pyDivQ a b = Except.ok (a / b) := by
  unfold pyDivQ
  rw [if_neg hb]

/-- C1, amended: with keys `1..n` on both run dicts, one score per crew
task in every run, and at least one run and one task, the table shows
for each task the mean of its scores over the runs, for each run the
mean of that run's scores over the tasks, the crew average as the mean
of the per-task averages, and the average execution time as the integer
truncation of the mean of the integer-truncated per-run summed execution
times. -/
theorem print_crew_evaluation_result_spec
    (crew_task_count n : Nat) (tasks_scores run_execution_times : RunDict)
    (htn : tasks_scores.map Prod.fst = List.range' 1 n)
    (hrn : run_execution_times.map Prod.fst = List.range' 1 n)
    (hlen : ∀ p ∈ tasks_scores, p.2.length = crew_task_count)
    (hn : 1 ≤ n) (htc : 1 ≤ crew_task_count) :
    ∃ d, print_crew_evaluation_result crew_task_count tasks_scores run_execution_times
        = Except.ok d ∧
      d.task_rows.length = crew_task_count ∧
      (∀ i, i < crew_task_count →
        (d.task_rows.getD i ([], 0)).2
          = ((tasks_scores.map Prod.snd).map (fun l => l.getD i 0)).sum / (n : ℚ)) ∧
      d.crew_scores = (tasks_scores.map Prod.snd).map (fun l => l.sum / (l.length : ℚ)) ∧
      d.crew_average
        = ((List.range crew_task_count).map
            (fun i => ((tasks_scores.map Prod.snd).map (fun l => l.getD i 0)).sum / (n : ℚ))).sum
          / (crew_task_count : ℚ) ∧
      d.run_exec_times = run_execution_times.map (fun p => pyTruncQ p.2.sum) ∧
      d.execution_time_avg
        = pyTruncQ ((run_execution_times.map (fun p => qOfInt (pyTruncQ p.2.sum))).sum
            / (n : ℚ)) := by
  have hts_len : tasks_scores.length = n := by
    have := congrArg List.length htn
    simpa using this
  have hret_len : run_execution_times.length = n := by
    have := congrArg List.length hrn
    simpa using this
  have hv_len : (tasks_scores.map Prod.snd).length = n := by
    rw [List.length_map, hts_len]
  have hv_ne : tasks_scores.map Prod.snd ≠ [] := by
    intro hcontra
    rw [hcontra] at hv_len
    simp at hv_len
    omega
  have hv_T : ∀ l ∈ tasks_scores.map Prod.snd, l.length = crew_task_count := by
    intro l hl
    rcases List.mem_map.mp hl with ⟨p, hp, hpe⟩
    rw [← hpe]
    exact hlen p hp
  have hnQ : ((n : ℕ) : ℚ) ≠ 0 := Nat.cast_ne_zero.mpr (by omega)
  have hTQ : ((crew_task_count : ℕ) : ℚ) ≠ 0 := Nat.cast_ne_zero.mpr (by omega)
  have hddlenAll : ∀ run, 1 ≤ run → run < 1 + n →
      (ddGet tasks_scores run).length = crew_task_count := by
    intro run h1 h2
    have hj : run - 1 < n := by omega
    have hrune : run = 1 + (run - 1) := by omega
    rw [hrune, ddGet_range1 tasks_scores 1 n (run - 1) htn hj]
    have hjlen : run - 1 < (tasks_scores.map Prod.snd).length := by
      rw [hv_len]
      exact hj
    rw [List.getD_eq_get _ [] hjlen]
    exact hv_T _ (List.get_mem _ _ _)
  set A : List ℚ := (List.range crew_task_count).map
      (fun i => ((tasks_scores.map Prod.snd).map (fun l => l.getD i 0)).sum / (n : ℚ))
    with hAdef
  have hATlen : A.length = crew_task_count := by
    rw [hAdef, List.length_map, List.length_range]
  have hzip := pyZipValues_uniform (tasks_scores.map Prod.snd) crew_task_count hv_ne hv_T
  have hAcond : ∀ x ∈ (List.range crew_task_count).map
        (fun i => (tasks_scores.map Prod.snd).map (fun l => l.getD i 0)),
      pyDivQ x.sum (x.length : ℚ) = Except.ok (x.sum / (x.length : ℚ)) := by
    intro x hx
    rcases List.mem_map.mp hx with ⟨i, _, hxe⟩
    apply pyDivQ_ok
    rw [← hxe, List.length_map, hv_len]
    exact hnQ
  have hA : mapE (fun scores => pyDivQ scores.sum (scores.length : ℚ))
        (pyZipValues (tasks_scores.map Prod.snd))
      = Except.ok A := by
    rw [hzip, mapE_ok _ (fun scores => scores.sum / (scores.length : ℚ)) _ hAcond,
      hAdef, List.map_map]
    congr 1
    apply List.map_congr_left
    intro i _
    simp only [Function.comp]
    rw [List.length_map, hv_len]
  have hCA : pyDivQ A.sum (A.length : ℚ)
      = Except.ok (A.sum / (crew_task_count : ℚ)) := by
    rw [hATlen]
    exact pyDivQ_ok _ _ hTQ
  have hrow : ∀ i ∈ List.range crew_task_count,
      evaluation_task_row tasks_scores A i
        = Except.ok ((List.range' 1 n).map
            (fun run => (ddGet tasks_scores run).getD i 0), A.getD i 0) := by
    intro i hiR
    have hi : i < crew_task_count := List.mem_range.mp hiR
    unfold evaluation_task_row
    rw [hts_len]
    have hin : ∀ run ∈ List.range' 1 n,
        pyIndexQ (ddGet tasks_scores run) i
          = Except.ok ((ddGet tasks_scores run).getD i 0) := by
      intro run hrun
      obtain ⟨h1, h2⟩ := List.mem_range'_1.mp hrun
      exact pyIndexQ_ok _ _ (by rw [hddlenAll run h1 h2]; exact hi)
    rw [mapE_ok _ (fun run => (ddGet tasks_scores run).getD i 0) _ hin,
      pyIndexQ_ok A i (by rw [hATlen]; exact hi)]
  have hR : mapE (evaluation_task_row tasks_scores A) (List.range crew_task_count)
      = Except.ok ((List.range crew_task_count).map
          (fun i => ((List.range' 1 n).map
            (fun run => (ddGet tasks_scores run).getD i 0), A.getD i 0))) :=
    mapE_ok _ _ _ hrow
  have hcscond : ∀ run ∈ List.range' 1 n,
      pyDivQ (ddGet tasks_scores run).sum ((ddGet tasks_scores run).length : ℚ)
        = Except.ok ((ddGet tasks_scores run).sum
            / ((ddGet tasks_scores run).length : ℚ)) := by
    intro run hrun
    obtain ⟨h1, h2⟩ := List.mem_range'_1.mp hrun
    apply pyDivQ_ok
    rw [hddlenAll run h1 h2]
    exact hTQ
  have hcs : mapE (fun run => pyDivQ (ddGet tasks_scores run).sum
        ((ddGet tasks_scores run).length : ℚ)) (List.range' 1 tasks_scores.length)
      = Except.ok ((tasks_scores.map Prod.snd).map
          (fun l => l.sum / (l.length : ℚ))) := by
    rw [hts_len, mapE_ok _ (fun run => (ddGet tasks_scores run).sum
        / ((ddGet tasks_scores run).length : ℚ)) _ hcscond]
    congr 1
    rw [List.range'_eq_map_range, List.map_map]
    have hmgr := map_getD_range (fun l => l.sum / (l.length : ℚ)) ([] : List ℚ)
        (tasks_scores.map Prod.snd)
    rw [hv_len] at hmgr
    rw [← hmgr]
    apply List.map_congr_left
    intro j hj
    have hjn : j < n := List.mem_range.mp hj
    simp only [Function.comp]
    rw [ddGet_range1 tasks_scores 1 n j htn hjn]
  have hexec : pyDivQ (((run_execution_times.map
          (fun p => pyTruncQ p.2.sum)).map qOfInt).sum)
        (((run_execution_times.map (fun p => pyTruncQ p.2.sum)).length : ℚ))
      = Except.ok ((run_execution_times.map
          (fun p => qOfInt (pyTruncQ p.2.sum))).sum / (n : ℚ)) := by
    rw [List.map_map, List.length_map, hret_len]
    exact pyDivQ_ok _ _ hnQ
  refine ⟨⟨(List.range crew_task_count).map
        (fun i => ((List.range' 1 n).map
          (fun run => (ddGet tasks_scores run).getD i 0), A.getD i 0)),
      (tasks_scores.map Prod.snd).map (fun l => l.sum / (l.length : ℚ)),
      A.sum / (crew_task_count : ℚ),
      run_execution_times.map (fun p => pyTruncQ p.2.sum),
      pyTruncQ ((run_execution_times.map
        (fun p => qOfInt (pyTruncQ p.2.sum))).sum / (n : ℚ))⟩,
    ?_, ?_, ?_, ?_, ?_, ?_, ?_⟩
  · simp only [print_crew_evaluation_result, hA, hCA, hR, hcs, hexec]
  · rw [List.length_map, List.length_range]
  · intro i hi
    rw [getD_map_range _ _ _ i hi, hAdef, getD_map_range _ _ _ i hi]
  · rfl
  · rfl
  · rfl
  · rfl

/-- C1, counterexample to the original execution-time clause: with two
runs of summed execution times `1.5` and `2.5`, the code first truncates
each per-run sum (to `1` and `2`) and displays `int((1+2)/2) = 1`, while
the integer truncation of the mean of the raw per-run sums is
`int(4/2) = 2`. -/
theorem print_crew_execution_time_truncation_counterexample :
    (print_crew_evaluation_result 1 [(1, [7]), (2, [9])]
        [(1, [3/2]), (2, [5/2])]).toOption.map EvaluationDisplay.execution_time_avg
      = some 1 ∧
    claimed_execution_time_avg [(1, [3/2]), (2, [5/2])] = 2 := by
  have f32 : pyTruncQ (3 / 2 : ℚ) = 1 := by
    rw [pyTruncQ, if_pos (by norm_num : (0 : ℚ) ≤ 3 / 2)]
    rw [Int.floor_eq_iff]
    norm_num
  have f52 : pyTruncQ (5 / 2 : ℚ) = 2 := by
    rw [pyTruncQ, if_pos (by norm_num : (0 : ℚ) ≤ 5 / 2)]
    rw [Int.floor_eq_iff]
    norm_num
  have f2 : pyTruncQ (2 : ℚ) = 2 := by
    rw [pyTruncQ, if_pos (by norm_num : (0 : ℚ) ≤ 2)]
    rw [Int.floor_eq_iff]
    norm_num
  constructor
  · obtain ⟨d, heq, hlen2, havg, hcs2, hca2, hret2, hea2⟩ :=
      print_crew_evaluation_result_spec 1 2 [(1, [7]), (2, [9])]
        [(1, [3 / 2]), (2, [5 / 2])] (by decide) (by decide)
        (by decide) (by decide) (by decide)
    rw [heq]
    show some d.execution_time_avg = some 1
    rw [hea2]
    simp only [List.map_cons, List.map_nil, List.sum_cons, List.sum_nil, add_zero]
    rw [f32, f52]
    have harith : (qOfInt 1 + qOfInt 2) / ((2 : ℕ) : ℚ) = 3 / 2 := by
      norm_num [qOfInt]
    rw [harith, f32]
  · rw [claimed_execution_time_avg]
    simp only [List.map_cons, List.map_nil, List.sum_cons, List.sum_nil, add_zero,
      List.length_cons, List.length_nil]
    have harith : ((3 / 2 : ℚ) + 5 / 2) / (((0 + 1 + 1 : ℕ)) : ℚ) = 2 := by
      norm_num
    rw [harith, f2]

/-- C1, witness for the amended theorem at two runs of one task each. -/
theorem print_crew_evaluation_result_spec_witness :
    ∃ d, print_crew_evaluation_result 1 [(1, [7]), (2, [9])] [(1, [3]), (2, [5])]
        = Except.ok d ∧
      d.task_rows.length = 1 ∧
      (∀ i, i < 1 →
        (d.task_rows.getD i ([], 0)).2
          = ((([(1, [7]), (2, [9])] : RunDict).map Prod.snd).map
              (fun l => l.getD i 0)).sum / ((2 : ℕ) : ℚ)) ∧
      d.crew_scores = (([(1, [7]), (2, [9])] : RunDict).map Prod.snd).map
          (fun l => l.sum / (l.length : ℚ)) ∧
      d.crew_average
        = ((List.range 1).map
            (fun i => ((([(1, [7]), (2, [9])] : RunDict).map Prod.snd).map
              (fun l => l.getD i 0)).sum / ((2 : ℕ) : ℚ))).sum / ((1 : ℕ) : ℚ) ∧
      d.run_exec_times = ([(1, [3]), (2, [5])] : RunDict).map
          (fun p => pyTruncQ p.2.sum) ∧
      d.execution_time_avg
        = pyTruncQ ((([(1, [3]), (2, [5])] : RunDict).map
            (fun p => qOfInt (pyTruncQ p.2.sum))).sum / ((2 : ℕ) : ℚ)) :=
  print_crew_evaluation_result_spec 1 2 [(1, [7]), (2, [9])] [(1, [3]), (2, [5])]
    (by decide) (by decide) (by decide) (by decide) (by decide)
